import Mathlib

/-!
Verification of the portfolio page's animated content and interaction engine
(`main.js`) against its natural-language specification.

The JavaScript source is shallowly embedded: JS strings are modelled as
`List Char` (sequences of code points), JS numbers that stay integral are
modelled as `Int`/`Nat`, fractional channel arithmetic as `ℚ` inside a
`JSNum` type with an explicit NaN, and the WCAG luminance math as `ℝ`.
The JS `%` operator is truncated remainder (`Int.tmod`), and `|0` is the
wrap to a signed 32-bit integer.  DOM state touched by the timeline pager
and the shared detail modal is modelled as an explicit record
(`PageState`), and each event handler becomes a state-transition function.
-/

/-! ### JS string primitives -/

/-- A JS string, modelled as its sequence of characters. -/
abbrev JSString := List Char

/-- Embed a Lean string literal as a `JSString`. -/
def jstr (s : String) : JSString := s.data

/-- The characters treated as whitespace by JS `String.prototype.trim`
(WhiteSpace and LineTerminator code points). -/
def isJSWhitespace (c : Char) : Bool :=
  c.toNat = 9 ∨ c.toNat = 10 ∨ c.toNat = 11 ∨ c.toNat = 12 ∨ c.toNat = 13 ∨
  c.toNat = 32 ∨ c.toNat = 160 ∨ c.toNat = 5760 ∨
  (8192 ≤ c.toNat ∧ c.toNat ≤ 8202) ∨ c.toNat = 8232 ∨ c.toNat = 8233 ∨
  c.toNat = 8239 ∨ c.toNat = 8287 ∨ c.toNat = 12288 ∨ c.toNat = 65279

/-- JS `String.prototype.trim`: strip whitespace from both ends. -/
def jsTrim (s : JSString) : JSString :=
  ((s.dropWhile isJSWhitespace).reverse.dropWhile isJSWhitespace).reverse

/-! ### JS integer primitives -/

/-- The JS `%` operator on integers: truncated remainder (sign of the
dividend), which is `Int.tmod`. -/
def jsRem (a b : Int) : Int := a.tmod b

/-- Wrap a JS number to a signed 32-bit integer, as `|0` / `ToInt32` do. -/
def toInt32 (n : Int) : Int :=
  let m := n % 4294967296
  if 2147483648 ≤ m then m - 4294967296 else m

/-! ### Timeline pager index arithmetic (`setActiveSlide`, main.js line 1216) -/

/-- The index computation performed by `setActiveSlide`:
`activeIndex = (index + slides.length) % slides.length` with JS `%`. -/
def setActiveSlideIndex (index : Int) (slideCount : Nat) : Int :=
  jsRem (index + slideCount) slideCount

/-- The value the spec claims `setActiveSlide` stores:
`((i % N) + N) % N` read with JS `%` semantics. -/
def specNormalizedIndex (i : Int) (n : Nat) : Int :=
  jsRem (jsRem i n + n) n

/-! ### `buildTypewriterPairs` (main.js lines 472..483) -/

/-- A question/answer pair produced by the typewriter pair builder. -/
structure TypewriterPair where
  question : JSString
  answer : JSString
deriving DecidableEq, Repr

/-- `buildTypewriterPairs`: walk the flat line list two at a time; an
out-of-range `lines[index + 1]` is `undefined ?? ""`, i.e. the empty
string; both parts are trimmed; a pair whose parts are both empty is
skipped. -/
def buildTypewriterPairs : List JSString → List TypewriterPair
  | [] => []
  | [q] =>
    let question := jsTrim q
    if question = [] then [] else [⟨question, []⟩]
  | q :: a :: rest =>
    let question := jsTrim q
    let answer := jsTrim a
    if question = [] ∧ answer = [] then buildTypewriterPairs rest
    else ⟨question, answer⟩ :: buildTypewriterPairs rest

/-- Group a flat list two at a time, keeping an unpaired trailing element.
Used only to state the spec-side description of `buildTypewriterPairs`. -/
def groupPairs : List JSString → List (JSString × Option JSString)
  | [] => []
  | [q] => [(q, none)]
  | q :: a :: rest => (q, some a) :: groupPairs rest

/-- Spec-side restatement of the pair builder: group two at a time (odd
trailing element paired with an empty answer), trim both parts, drop a
pair whose trimmed parts are both empty. -/
def specTypewriterPairs (lines : List JSString) : List TypewriterPair :=
  (groupPairs lines).filterMap fun qa =>
    let question := jsTrim qa.1
    let answer := jsTrim (qa.2.getD [])
    if question = [] ∧ answer = [] then none else some ⟨question, answer⟩

/-! ### `hashString` and the gradient palette (main.js lines 1506..1578) -/

/-- One step of `hashString`'s loop:
`hash = ((hash << 5) - hash) + value.charCodeAt(index); hash |= 0`.
`hash << 5` wraps to 32 bits; the outer sum is exact in doubles at these
magnitudes and is then wrapped by `|= 0`. -/
def hashStep (hash : Int) (c : Char) : Int :=
  toInt32 (toInt32 (hash * 32) - hash + c.toNat)

/-- `hashString`: fold `hashStep` over the character codes starting from 0,
then take `Math.abs`. -/
def hashString (value : JSString) : Int :=
  ((value.foldl hashStep 0).natAbs : Int)

/-- `PROJECT_GRADIENT_PALETTE` (main.js lines 54..61). -/
def PROJECT_GRADIENT_PALETTE : List (JSString × JSString) :=
  [ (jstr "#007aff", jstr "#5ac8fa"),
    (jstr "#34c759", jstr "#30d158"),
    (jstr "#ff9500", jstr "#ffcc00"),
    (jstr "#af52de", jstr "#bf5af2"),
    (jstr "#5856d6", jstr "#5e5ce6"),
    (jstr "#ff3b30", jstr "#ff6961") ]

/-- Palette resolution in `decorateProjectTiles` (main.js lines 1527..1529):
a provided non-empty palette is used, otherwise the default one. -/
def resolveGradientPalette (provided : Option (List (JSString × JSString))) :
    List (JSString × JSString) :=
  match provided with
  | some palette => if 0 < palette.length then palette else PROJECT_GRADIENT_PALETTE
  | none => PROJECT_GRADIENT_PALETTE

/-- The palette lookup in `decorateProjectTiles` (main.js line 1565):
`gradientPalette[projectHash % gradientPalette.length]`. -/
def paletteLookup (palette : List (JSString × JSString)) (seed : JSString) :
    Option (JSString × JSString) :=
  palette.get? (jsRem (hashString seed) palette.length).toNat

/-! ### `waitForDelay` and the typewriter abort contract
(main.js lines 371..397 and 674..684) -/

/-- The observable state of an `AbortSignal` across one wait: whether it
was already aborted when the wait started, and whether it aborts while
the wait is pending. -/
structure SignalBehavior where
  abortedAtCall : Bool
  abortsDuringWait : Bool
deriving DecidableEq, Repr

/-- How a `waitForDelay` promise settles. -/
inductive WaitOutcome where
  | resolved
  | rejected (message : JSString)
deriving DecidableEq, Repr

/-- The rejection message used by `waitForDelay`. -/
def heroTypewriterAbortMessage : JSString := jstr "Hero typewriter aborted"

/-- `waitForDelay(durationMs, signal)`: with no signal the timeout simply
resolves; with a signal it rejects immediately when the signal is already
aborted, rejects (clearing the timeout) when the signal aborts during the
wait, and resolves when the timeout fires first. -/
def waitForDelay (durationMs : Nat) (signal : Option SignalBehavior) : WaitOutcome :=
  match durationMs, signal with
  | _, none => .resolved
  | _, some sig =>
    if sig.abortedAtCall then .rejected heroTypewriterAbortMessage
    else if sig.abortsDuringWait then .rejected heroTypewriterAbortMessage
    else .resolved

/-- The error filter in `startHeroTypewriter`'s catch handler (main.js
lines 677..682): a rejection whose message is the abort marker is
swallowed; anything else is logged. -/
def startHeroTypewriterCatchSwallows (message : JSString) : Bool :=
  message = heroTypewriterAbortMessage

/-! ### `escapeHTML` (main.js lines 404..411) -/

/-- The single-quote character, `'` (code point 39). -/
def singleQuoteChar : Char := Char.ofNat 39

/-- The double-quote character, `"` (code point 34). -/
def doubleQuoteChar : Char := Char.ofNat 34

/-- The HTML entity for a single quote (ampersand, hash, 3, 9, semicolon). -/
def singleQuoteEntity : JSString := ['&', '#', '3', '9', ';']

/-- JS `String.prototype.replaceAll` with a single-character needle:
every occurrence of that character is replaced. -/
def replaceAllChar (s : JSString) (needle : Char) (replacement : JSString) : JSString :=
  s.flatMap fun c => if c = needle then replacement else [c]

/-- `escapeHTML`: the chain of five `replaceAll` calls escaping
ampersand, angle brackets and both quote characters. -/
def escapeHTML (value : JSString) : JSString :=
  replaceAllChar
    (replaceAllChar
      (replaceAllChar
        (replaceAllChar
          (replaceAllChar value '&' (jstr "&amp;"))
          '<' (jstr "&lt;"))
        '>' (jstr "&gt;"))
      doubleQuoteChar (jstr "&quot;"))
    singleQuoteChar singleQuoteEntity

/-- Spec-side single-pass escaper: each of the five HTML-reserved
characters is replaced by its entity, every other character is kept. -/
def escChar (c : Char) : JSString :=
  if c = '&' then jstr "&amp;"
  else if c = '<' then jstr "&lt;"
  else if c = '>' then jstr "&gt;"
  else if c = doubleQuoteChar then jstr "&quot;"
  else if c = singleQuoteChar then singleQuoteEntity
  else [c]

/-! ### Timeline pager, expand controls and the shared detail modal
(main.js lines 1058..1333) -/

/-- The inline animation assigned to an expand control's icon by
`setTimelinePlusState`: the open animation, the close animation, or
`"none"`. -/
inductive IconAnimation where
  | makeX
  | makePlus
  | noAnimation
deriving DecidableEq, Repr

/-- The modelled visual state of one `.plus-go-x` expand control:
its checkbox `checked` flag, its `aria-expanded` mirror, and the icon
animation last assigned. -/
structure PlusControlState where
  checked : Bool
  ariaExpanded : Bool
  iconAnimation : IconAnimation
deriving DecidableEq, Repr

/-- `setTimelinePlusState(checkbox, isOpen, animate)` (main.js lines
1058..1076): sets `checked` and `aria-expanded` to `isOpen`, and assigns
the icon the open/close animation when `animate` is true or `"none"`
otherwise.  The new state does not depend on the old one. -/
def setTimelinePlusState (_ : PlusControlState) (isOpen animate : Bool) :
    PlusControlState :=
  { checked := isOpen
    ariaExpanded := isOpen
    iconAnimation :=
      if animate then (if isOpen then .makeX else .makePlus) else .noAnimation }

/-- A rendered timeline entry (`data.intro.timeline[i]`). -/
structure TimelineEntry where
  title : JSString
  subtitle : JSString
  date : JSString
  img : JSString
  description : JSString
deriving DecidableEq, Repr

/-- The page-level mutable state touched by the timeline pager and the
shared detail modal.  Expand controls are identified by a natural number;
`controls` gives each one's visual state.  `activeModalControl` is the
module-level `activeTimelineModalCheckbox`, `modalOpen` mirrors the
modal's `is-open` class (negated `aria-hidden`), `bodyScrollLocked`
mirrors `body.timeline-modal-open`, and `focusedControl` tracks which
control, if any, holds keyboard focus. -/
structure PageState where
  controls : Nat → PlusControlState
  activeModalControl : Option Nat
  modalOpen : Bool
  bodyScrollLocked : Bool
  focusedControl : Option Nat
  modalTitle : JSString
  modalMeta : JSString
  modalDescriptionHTML : JSString
  activeIndex : Int

/-- Replace one control's state, leaving the rest of the page unchanged. -/
def updateControl (s : PageState) (id : Nat) (f : PlusControlState → PlusControlState) :
    PageState :=
  { s with controls := fun c => if c = id then f (s.controls c) else s.controls c }

/-- Split a JS string on a separator character (JS `split`). -/
def splitOnChar (sep : Char) : JSString → List JSString
  | [] => [[]]
  | c :: t =>
    if c = sep then [] :: splitOnChar sep t
    else
      match splitOnChar sep t with
      | [] => [[c]]
      | r :: rs => (c :: r) :: rs

/-- JS `Array.prototype.join` with a separator string. -/
def joinWithSep (sep : JSString) : List JSString → JSString
  | [] => []
  | [x] => x
  | x :: xs => x ++ sep ++ joinWithSep sep xs

/-- The modal meta line: `[subtitle, date].filter(Boolean).join(" · ")`. -/
def modalMetaText (subtitle date : JSString) : JSString :=
  joinWithSep (jstr " · ") (([subtitle, date]).filter fun s => ¬s.isEmpty)

/-- The modal description markup: split the raw description on newlines,
trim each line, drop blank lines, and wrap each remaining line in an
escaped `<p>` element. -/
def modalDescriptionMarkup (description : JSString) : JSString :=
  (((splitOnChar (Char.ofNat 10) description).map jsTrim).filter
      fun line => ¬line.isEmpty).flatMap
    fun line => jstr "<p>" ++ escapeHTML line ++ jstr "</p>"

/-- `closeTimelineJobModal({restoreFocus})` (main.js lines 1095..1113):
hide the overlay and release the scroll lock; if an owner control is
recorded, clear the ownership, reset that control's visuals with no
animation, and restore focus to it only when `restoreFocus` is true. -/
def closeTimelineJobModal (restoreFocus : Bool) (s : PageState) : PageState :=
  let s1 := { s with modalOpen := false, bodyScrollLocked := false }
  match s1.activeModalControl with
  | none => s1
  | some previous =>
    let s2 := { s1 with activeModalControl := none }
    let s3 := updateControl s2 previous fun c => setTimelinePlusState c false false
    if restoreFocus then { s3 with focusedControl := some previous } else s3

/-- `openTimelineJobModal(entry, triggerCheckbox)` (main.js lines
1120..1152): if a different control currently owns the modal, force-close
its visual state with no animation; populate title, meta and description;
set the trigger control open with animation; record it as the owner; show
the overlay and lock page scroll. -/
def openTimelineJobModal (entry : TimelineEntry) (trigger : Nat) (s : PageState) :
    PageState :=
  let s1 :=
    match s.activeModalControl with
    | some previous =>
      if previous ≠ trigger then
        updateControl s previous fun c => setTimelinePlusState c false false
      else s
    | none => s
  let s2 :=
    { s1 with
      modalTitle := jsTrim entry.title
      modalMeta := modalMetaText (jsTrim entry.subtitle) (jsTrim entry.date)
      modalDescriptionHTML := modalDescriptionMarkup entry.description }
  let s3 := updateControl s2 trigger fun c => setTimelinePlusState c true true
  { s3 with
    activeModalControl := some trigger
    modalOpen := true
    bodyScrollLocked := true }

/-- `clearTimelinePlusInSlide(slide, animate)` (main.js lines 1083..1089):
reset every expand control whose slide is the given one.  Containment of
a control in a slide is modelled by the assignment `controlSlide`. -/
def clearTimelinePlusInSlide (controlSlide : Nat → Nat) (slide : Nat)
    (animate : Bool) (s : PageState) : PageState :=
  { s with
    controls := fun c =>
      if controlSlide c = slide then setTimelinePlusState (s.controls c) false animate
      else s.controls c }

/-- `setActiveSlide(index, ...)` (main.js lines 1215..1245), restricted to
the modelled state: store `(index + N) % N` as the active index, reset the
expand controls of every non-active slide with no animation, and, if the
recorded modal owner is not contained in the new active slide, close the
modal without restoring focus. -/
def setActiveSlide (slideCount : Nat) (controlSlide : Nat → Nat) (index : Int)
    (s : PageState) : PageState :=
  let newActive := setActiveSlideIndex index slideCount
  let s1 := (List.range slideCount).foldl
    (fun (acc : PageState) (k : Nat) =>
      if (k : Int) = newActive then acc
      else clearTimelinePlusInSlide controlSlide k false acc)
    { s with activeIndex := newActive }
  match s1.activeModalControl with
  | some m =>
    if (controlSlide m : Int) ≠ newActive then closeTimelineJobModal false s1 else s1
  | none => s1

/-- `renderedTimelineEntries[index]` as read by the handler: a negative or
out-of-range index yields `undefined`. -/
def entryAt (entries : List TimelineEntry) (index : Int) : Option TimelineEntry :=
  if 0 ≤ index then entries.get? index.toNat else none

/-- `timelinePlusGoXHandler` (main.js lines 1306..1333) for a checkbox
inside the slide with the given parsed `data-index`: no entry, or an
entry whose trimmed description is empty, snaps the control closed with
no animation; unchecking closes the modal without focus restore and
resets the control with animation; checking opens the modal. -/
def timelinePlusGoXHandler (entries : List TimelineEntry) (slideIndex : Int)
    (checkboxId : Nat) (s : PageState) : PageState :=
  match entryAt entries slideIndex with
  | none => updateControl s checkboxId fun c => setTimelinePlusState c false false
  | some entry =>
    if 0 < (jsTrim entry.description).length then
      if (s.controls checkboxId).checked = false then
        let s1 := closeTimelineJobModal false s
        updateControl s1 checkboxId fun c => setTimelinePlusState c false true
      else openTimelineJobModal entry checkboxId s
    else updateControl s checkboxId fun c => setTimelinePlusState c false false

/-- A sample expand-control state: closed, no animation recorded. -/
def closedControl : PlusControlState :=
  { checked := false, ariaExpanded := false, iconAnimation := .noAnimation }

/-- A sample page state in which control 0 owns the open modal. -/
def samplePageState : PageState :=
  { controls := fun c =>
      if c = 0 then { checked := true, ariaExpanded := true, iconAnimation := .makeX }
      else closedControl
    activeModalControl := some 0
    modalOpen := true
    bodyScrollLocked := true
    focusedControl := none
    modalTitle := []
    modalMeta := []
    modalDescriptionHTML := []
    activeIndex := 0 }

/-- A sample timeline entry with a non-blank description. -/
def sampleEntry : TimelineEntry :=
  { title := jstr "iOS Engineer"
    subtitle := jstr "Acme"
    date := jstr "2024"
    img := jstr "logo.png"
    description := jstr "Shipped the app." }

/-- A sample timeline entry whose description is whitespace-only. -/
def sampleBlankEntry : TimelineEntry :=
  { title := jstr "Intern"
    subtitle := jstr "Acme"
    date := jstr "2019"
    img := jstr "logo.png"
    description := jstr "   " }

/-- A sample containment assignment: control `c` lives in slide `c`. -/
def sampleControlSlide : Nat → Nat := fun c => c

/-! ### WCAG luminance and contrast (main.js lines 224..254) -/

/-- An RGB triplet as used by the contrast math; channels are JS doubles,
modelled as reals. -/
structure RGBColor where
  r : ℝ
  g : ℝ
  b : ℝ

/-- `toLinearChannel`: normalize a channel to `[0,1]` and gamma-expand it
(WCAG). -/
noncomputable def toLinearChannel (channel : ℝ) : ℝ :=
  if channel / 255 ≤ 0.03928 then (channel / 255) / 12.92
  else ((channel / 255 + 0.055) / 1.055) ^ (2.4 : ℝ)

/-- `relativeLuminance` (WCAG). -/
noncomputable def relativeLuminance (color : RGBColor) : ℝ :=
  0.2126 * toLinearChannel color.r + 0.7152 * toLinearChannel color.g +
    0.0722 * toLinearChannel color.b

/-- `contrastRatio` (WCAG): lighter luminance plus 0.05 over darker
luminance plus 0.05. -/
noncomputable def contrastRatio (first second : RGBColor) : ℝ :=
  (max (relativeLuminance first) (relativeLuminance second) + 0.05) /
    (min (relativeLuminance first) (relativeLuminance second) + 0.05)

/-- A color with non-negative channels (the data model keeps channels in
`[0, 255]`). -/
def RGBColor.Nonneg (c : RGBColor) : Prop := 0 ≤ c.r ∧ 0 ≤ c.g ∧ 0 ≤ c.b

/-! ### `highlightHeroLine` (main.js lines 419..440) -/

/-- A single match as produced by the regex engine in
`line.matchAll(regex)`: its start index and matched text. -/
structure RegexMatch where
  index : Nat
  term : JSString
deriving DecidableEq, Repr

/-- Well-formedness of a match list for a line, starting from position
`p`: matches are in order, non-empty, within bounds, non-overlapping, and
each match's text is the slice of the line at its index.  Every match
list produced by `matchAll` with the hero highlight pattern satisfies
this. -/
def matchesWF (line : JSString) : Nat → List RegexMatch → Bool
  | _, [] => true
  | p, m :: rest =>
    decide (p ≤ m.index) && decide (0 < m.term.length) &&
      decide (m.index + m.term.length ≤ line.length) &&
      decide (m.term = (line.drop m.index).take m.term.length) &&
      matchesWF line (m.index + m.term.length) rest

/-- The accent span's opening tag. -/
def accentSpanOpen : JSString := jstr "<span class=\"hero-typewriter-accent\">"

/-- The accent span's closing tag. -/
def accentSpanClose : JSString := jstr "</span>"

/-- The `forEach` accumulation in `highlightHeroLine`: escape the gap
before each match, wrap the escaped match text in the accent span, then
escape the remaining tail. -/
def highlightGo (line : JSString) : Nat → List RegexMatch → JSString
  | currentIndex, [] => escapeHTML (line.drop currentIndex)
  | currentIndex, m :: rest =>
    escapeHTML ((line.drop currentIndex).take (m.index - currentIndex)) ++
      accentSpanOpen ++ escapeHTML m.term ++ accentSpanClose ++
      highlightGo line (m.index + m.term.length) rest

/-- `highlightHeroLine(line, pattern)` given the matches the regex engine
found: with no matches the whole line is escaped, otherwise the
accumulation runs from index 0. -/
def highlightHeroLine (line : JSString) (ms : List RegexMatch) : JSString :=
  if ms.isEmpty then escapeHTML line else highlightGo line 0 ms

/-- A segment of the highlighted output: literal text or an
accent-wrapped match. -/
inductive HighlightSeg where
  | plainText (t : JSString)
  | accentText (t : JSString)
deriving DecidableEq, Repr

/-- The segment decomposition of a line under a match list. -/
def segmentsOf (line : JSString) : Nat → List RegexMatch → List HighlightSeg
  | p, [] => [.plainText (line.drop p)]
  | p, m :: rest =>
    .plainText ((line.drop p).take (m.index - p)) :: .accentText m.term ::
      segmentsOf line (m.index + m.term.length) rest

/-- Render one segment: literal text is escaped; accent text is escaped
and wrapped in the accent span tags. -/
def renderSeg : HighlightSeg → JSString
  | .plainText t => escapeHTML t
  | .accentText t => accentSpanOpen ++ escapeHTML t ++ accentSpanClose

/-- The literal (unescaped) text carried by a segment. -/
def segText : HighlightSeg → JSString
  | .plainText t => t
  | .accentText t => t

/-- The texts wrapped in accent spans, in order. -/
def accentTexts (segs : List HighlightSeg) : List JSString :=
  segs.filterMap fun s =>
    match s with
    | .accentText t => some t
    | .plainText _ => none

/-! ### Color parsing (`parseHexColor`, `parseRgbColor`, `parseColor`,
main.js lines 81..136) -/

/-- A JS number as color parsing produces it: NaN or a rational value
(doubles idealized as exact rationals). -/
inductive JSNum where
  | nan
  | val (q : ℚ)
deriving DecidableEq, Repr

/-- The value of one hexadecimal digit (0-9, a-f, A-F). -/
def hexDigitValue (c : Char) : Option Nat :=
  if 48 ≤ c.toNat ∧ c.toNat ≤ 57 then some (c.toNat - 48)
  else if 97 ≤ c.toNat ∧ c.toNat ≤ 102 then some (c.toNat - 87)
  else if 65 ≤ c.toNat ∧ c.toNat ≤ 70 then some (c.toNat - 55)
  else none

/-- `Number.parseInt(s, 16)`: skip leading whitespace, an optional sign,
an optional `0x`/`0X` prefix, then read the longest run of hex digits;
an empty run is NaN. -/
def jsParseIntHex (s : JSString) : JSNum :=
  let s1 := s.dropWhile isJSWhitespace
  let neg : Bool := s1.head? = some '-'
  let hasSign : Bool := s1.head? = some '-' ∨ s1.head? = some '+'
  let s2 := if hasSign then s1.tail else s1
  let hexMark : Bool :=
    s2.head? = some '0' ∧ (s2.tail.head? = some 'x' ∨ s2.tail.head? = some 'X')
  let s3 := if hexMark then s2.tail.tail else s2
  let digits := s3.takeWhile fun c => (hexDigitValue c).isSome
  if digits = [] then .nan
  else
    .val ((((if neg then -1 else 1) *
      digits.foldl (fun acc c => 16 * acc + ((hexDigitValue c).getD 0 : Int)) 0 : Int) : ℚ))

/-- Alpha normalization `parseInt(..) / 255`; NaN propagates. -/
def JSNum.div255 : JSNum → JSNum
  | .nan => .nan
  | .val q => .val (q / 255)

/-- A parsed color `{r, g, b, a}` with JS-number channels. -/
structure JSColor where
  r : JSNum
  g : JSNum
  b : JSNum
  a : JSNum
deriving DecidableEq, Repr

/-- The body of `parseHexColor` after the `#` has been stripped: 3 digits
expand pairwise, 6 digits give opaque channels, 8 digits add an alpha
byte (NaN alpha falls back to 1); any other length is rejected. -/
def parseHexPayload (hex : JSString) : Option JSColor :=
  match hex with
  | [c1, c2, c3] =>
    some ⟨jsParseIntHex [c1, c1], jsParseIntHex [c2, c2], jsParseIntHex [c3, c3],
      .val 1⟩
  | [c1, c2, c3, c4, c5, c6] =>
    some ⟨jsParseIntHex [c1, c2], jsParseIntHex [c3, c4], jsParseIntHex [c5, c6],
      .val 1⟩
  | [c1, c2, c3, c4, c5, c6, c7, c8] =>
    some ⟨jsParseIntHex [c1, c2], jsParseIntHex [c3, c4], jsParseIntHex [c5, c6],
      if (jsParseIntHex [c7, c8]).div255 = .nan then .val 1
      else (jsParseIntHex [c7, c8]).div255⟩
  | _ => none

/-- `parseHexColor`: trim, require a leading `#`, parse the payload. -/
def parseHexColor (color : JSString) : Option JSColor :=
  if (jsTrim color).head? = some '#' then parseHexPayload (jsTrim color).tail
  else none

/-- Match the `^rgba?\(([^)]+)\)$` wrapper (case-insensitive) on the
trimmed string, returning the non-empty inner text before the final
closing parenthesis. -/
def rgbWrapperInner (s : JSString) : Option JSString :=
  if s.head? = some 'r' ∨ s.head? = some 'R' then
    let s1 := s.tail
    if s1.head? = some 'g' ∨ s1.head? = some 'G' then
      let s2 := s1.tail
      if s2.head? = some 'b' ∨ s2.head? = some 'B' then
        let s3 := s2.tail
        let s4 := if s3.head? = some 'a' ∨ s3.head? = some 'A' then s3.tail else s3
        if s4.head? = some '(' then
          let t := s4.tail
          let inner := t.takeWhile fun c => ¬(c = ')')
          if ¬(inner = []) ∧ t.drop inner.length = [')'] then some inner else none
        else none
      else none
    else none
  else none

/-- Membership in the regex character class `[\d.]`. -/
def isNumTokenChar (c : Char) : Bool := c.isDigit ∨ c = '.'

/-- The maximal runs matched by `/[\d.]+/g` over a string: a numeric
character either starts a new run or extends the run started by the
following numeric character. -/
def numericTokens : JSString → List JSString
  | [] => []
  | c :: t =>
    let rest := numericTokens t
    if isNumTokenChar c then
      match t with
      | c2 :: _ =>
        if isNumTokenChar c2 then
          match rest with
          | run :: rs => (c :: run) :: rs
          | [] => [[c]]
        else [c] :: rest
      | [] => [[c]]
    else rest

/-- The value of a run of decimal digits. -/
def digitsToNat (ds : JSString) : Nat :=
  ds.foldl (fun acc c => 10 * acc + (c.toNat - 48)) 0

/-- The fractional value of the digit run after a decimal point. -/
def fracValue (ds : JSString) : ℚ :=
  ds.foldr (fun c acc => (((c.toNat - 48 : ℕ) : ℚ) + acc) / 10) 0

/-- `Number.parseFloat` restricted to the tokens `/[\d.]+/` can produce
(non-empty runs of digits and dots): the longest valid decimal prefix; a
prefix holding no digit is NaN. -/
def jsParseFloatToken (token : JSString) : JSNum :=
  let intPart := token.takeWhile Char.isDigit
  let rest := token.drop intPart.length
  match rest with
  | '.' :: frac =>
    let fracDigits := frac.takeWhile Char.isDigit
    if intPart = [] ∧ fracDigits = [] then .nan
    else .val ((digitsToNat intPart : ℚ) + fracValue fracDigits)
  | _ => if intPart = [] then .nan else .val (digitsToNat intPart)

/-- `parseRgbColor`: match the wrapper, extract the numeric tokens, parse
them as floats; fewer than three channels or NaN among the first three is
a failure; a finite fourth channel becomes the alpha, else alpha is 1. -/
def parseRgbColor (color : JSString) : Option JSColor :=
  match rgbWrapperInner (jsTrim color) with
  | none => none
  | some inner =>
    let channels := (numericTokens inner).map jsParseFloatToken
    if channels.length < 3 ∨ (channels.take 3).any (fun ch => ch = JSNum.nan) then none
    else
      some ⟨channels.getD 0 .nan, channels.getD 1 .nan, channels.getD 2 .nan,
        match channels.get? 3 with
        | some (.val q) => .val q
        | _ => .val 1⟩

/-- `parseColor`: hex first, then `rgb()`/`rgba()` (the `??` chain). -/
def parseColor (color : JSString) : Option JSColor :=
  match parseHexColor color with
  | some c => some c
  | none => parseRgbColor color

/-- Rational value of one hex digit (reference decoder helper). -/
def hexVal (c : Char) : ℚ := ((hexDigitValue c).getD 0 : ℚ)

/-- Reference hex decoder for the spec comparison: pairwise expansion for
3 digits, byte pairs for 6/8 digits, alpha byte scaled by 255. -/
def referenceHexDecode (ds : JSString) : Option JSColor :=
  match ds with
  | [c1, c2, c3] =>
    some ⟨.val (17 * hexVal c1), .val (17 * hexVal c2), .val (17 * hexVal c3), .val 1⟩
  | [c1, c2, c3, c4, c5, c6] =>
    some ⟨.val (16 * hexVal c1 + hexVal c2), .val (16 * hexVal c3 + hexVal c4),
      .val (16 * hexVal c5 + hexVal c6), .val 1⟩
  | [c1, c2, c3, c4, c5, c6, c7, c8] =>
    some ⟨.val (16 * hexVal c1 + hexVal c2), .val (16 * hexVal c3 + hexVal c4),
      .val (16 * hexVal c5 + hexVal c6), .val ((16 * hexVal c7 + hexVal c8) / 255)⟩
  | _ => none

/-- The input shapes `parseHexColor` accepts: trimmed input starting with
`#` whose payload has length 3, 6 or 8. -/
def hexShape (s : JSString) : Bool :=
  (jsTrim s).head? = some '#' ∧
    ((jsTrim s).tail.length = 3 ∨ (jsTrim s).tail.length = 6 ∨
      (jsTrim s).tail.length = 8)

/-- The input shapes `parseRgbColor` accepts: the `rgba?(...)` wrapper
matches and at least three numeric tokens parse to non-NaN numbers. -/
def rgbShape (s : JSString) : Bool :=
  match rgbWrapperInner (jsTrim s) with
  | some inner =>
    3 ≤ ((numericTokens inner).map jsParseFloatToken).length ∧
      (((numericTokens inner).map jsParseFloatToken).take 3).all
        fun ch => ¬(ch = JSNum.nan)
  | none => false

/-- Build an `rgb(...)`/`rgba(...)` source string around a channel body. -/
def mkRgbString (withAlpha : Bool) (body : JSString) : JSString :=
  (if withAlpha then ['r', 'g', 'b', 'a', '('] else ['r', 'g', 'b', '(']) ++
    body ++ [')']

/-- Join channel texts with a single separator character. -/
def sepJoin (sep : Char) : List JSString → JSString
  | [] => []
  | [x] => x
  | x :: xs => x ++ sep :: sepJoin sep xs

/-! ### Theorems -/

/-- JS `%` of nonnegative operands agrees with Euclidean remainder. -/
theorem jsRem_eq_emod {a b : Int} (ha : 0 ≤ a) (hb : 0 ≤ b) : jsRem a b = a % b :=
  Int.tmod_eq_emod ha hb

/-- Truncated remainder negates with its dividend. -/
theorem tmod_neg_dividend (a b : Int) : (-a).tmod b = -(a.tmod b) := by
  simp only [Int.tmod_def, Int.neg_tdiv]
  ring

/-- Truncated remainder is congruent to the dividend. -/
theorem tmod_modEq (i n : Int) : i.tmod n ≡ i [ZMOD n] := by
  rw [Int.modEq_iff_dvd, Int.tmod_def]
  exact ⟨i.tdiv n, by ring⟩

/-- Truncated remainder by a positive modulus is greater than `-n`. -/
theorem neg_lt_tmod (i n : Int) (h : 0 < n) : -n < i.tmod n := by
  rcases le_or_lt 0 i with hi | hi
  · have := Int.tmod_nonneg n hi
    omega
  · have h1 : i.tmod n = -((-i).tmod n) := by rw [tmod_neg_dividend, neg_neg]
    have h2 := Int.tmod_lt_of_pos (-i) h
    omega

/-- The spec's `((i % N) + N) % N` under JS `%` is the Euclidean remainder. -/
theorem specNormalizedIndex_eq_emod (i : Int) (n : Nat) (h : 0 < n) :
    specNormalizedIndex i n = i % (n : Int) := by
  unfold specNormalizedIndex jsRem
  have h1 : (i.tmod n + n) ≡ i [ZMOD (n : Int)] := by
    calc i.tmod n + n ≡ i + n [ZMOD (n : Int)] :=
          Int.ModEq.add_right n (tmod_modEq i n)
    _ ≡ i + 0 [ZMOD (n : Int)] :=
          Int.ModEq.add_left i (Int.modEq_iff_dvd.mpr ⟨-1, by ring⟩)
    _ = i := by ring
  have hn : (0 : Int) < n := by exact_mod_cast h
  have h2 : 0 ≤ i.tmod n + n := by have := neg_lt_tmod i n hn; omega
  rw [Int.tmod_eq_emod h2 hn.le]
  exact h1

/-- C1 counterexample: with 3 slides and index `-4`, the code stores `-1`
(JS `(-4 + 3) % 3`), while the claimed value `((-4 % 3) + 3) % 3` is `2`;
the stored index is not in `[0, 3)`. -/
theorem setActiveSlideIndex_not_normalized_at_neg4 :
    setActiveSlideIndex (-4) 3 = -1 ∧ specNormalizedIndex (-4) 3 = 2 ∧
      ¬(0 ≤ setActiveSlideIndex (-4) 3) := by
  refine ⟨by decide, by decide, by decide⟩

/-- C1 (amended): for every slide count `N > 0` and every index `i ≥ -N`
(the only indices the pager ever passes), `setActiveSlide` stores
`((i % N) + N) % N`, which lies in `[0, N)`. -/
theorem setActiveSlideIndex_normalizes (i : Int) (n : Nat) (h : 0 < n)
    (hge : -(n : Int) ≤ i) :
    setActiveSlideIndex i n = specNormalizedIndex i n ∧
      0 ≤ setActiveSlideIndex i n ∧ setActiveSlideIndex i n < n := by
  have hn : (0 : Int) < n := by exact_mod_cast h
  have hcode : setActiveSlideIndex i n = i % (n : Int) := by
    unfold setActiveSlideIndex jsRem
    rw [Int.tmod_eq_emod (by omega) hn.le]
    have h3 := Int.add_mul_emod_self_left i (n : Int) 1
    simpa using h3
  refine ⟨?_, ?_, ?_⟩
  · rw [hcode, specNormalizedIndex_eq_emod i n h]
  · rw [hcode]
    exact Int.emod_nonneg i (by omega)
  · rw [hcode]
    exact Int.emod_lt_of_pos i hn

/-- C1 witness: at `i = -1` with `N = 3` the stored index is the claimed
normalized value and lies in `[0, 3)`. -/
theorem setActiveSlideIndex_normalizes_witness :
    setActiveSlideIndex (-1) 3 = specNormalizedIndex (-1) 3 ∧
      0 ≤ setActiveSlideIndex (-1) 3 ∧ setActiveSlideIndex (-1) 3 < 3 :=
  setActiveSlideIndex_normalizes (-1) 3 (by decide) (by decide)

/-- Trimming the empty string yields the empty string. -/
theorem jsTrim_nil : jsTrim [] = [] := rfl

/-- C8: `buildTypewriterPairs` agrees with the spec-side description
(group two at a time with trimming, odd trailing element becomes a
question with empty answer, a doubly-empty pair is dropped), and the
spec's concrete scenario evaluates as stated. -/
theorem buildTypewriterPairs_spec :
    (∀ lines : List JSString, buildTypewriterPairs lines = specTypewriterPairs lines) ∧
      buildTypewriterPairs [jstr "Q1", jstr "A1", jstr "Q2"] =
        [⟨jstr "Q1", jstr "A1"⟩, ⟨jstr "Q2", []⟩] := by
  constructor
  · intro lines
    induction lines using buildTypewriterPairs.induct <;>
      simp_all [buildTypewriterPairs, specTypewriterPairs, groupPairs,
        List.filterMap_cons, jsTrim_nil] <;>
      (split <;> simp_all)
  · decide

/-- The resolved gradient palette is never empty. -/
theorem resolveGradientPalette_pos (provided : Option (List (JSString × JSString))) :
    0 < (resolveGradientPalette provided).length := by
  match provided with
  | none => decide
  | some palette =>
    by_cases h : 0 < palette.length <;> simp [resolveGradientPalette, h] <;> decide

/-- C10: `hashString` always returns a non-negative integer (the absolute
value of the 32-bit-wrapped accumulator), so the palette lookup
`gradientPalette[projectHash % gradientPalette.length]` in
`decorateProjectTiles` always hits an element of the (never empty)
resolved palette. -/
theorem hashString_palette_lookup_in_bounds
    (provided : Option (List (JSString × JSString))) (seed : JSString) :
    0 ≤ hashString seed ∧
      (paletteLookup (resolveGradientPalette provided) seed).isSome = true := by
  have hnn : 0 ≤ hashString seed := Int.natCast_nonneg _
  refine ⟨hnn, ?_⟩
  have hlen := resolveGradientPalette_pos provided
  set palette := resolveGradientPalette provided with hp
  have hlenZ : (0 : Int) < palette.length := by exact_mod_cast hlen
  have hrem : jsRem (hashString seed) palette.length =
      hashString seed % (palette.length : Int) :=
    jsRem_eq_emod hnn (by omega)
  have hlt : (jsRem (hashString seed) palette.length).toNat < palette.length := by
    rw [hrem]
    have h1 := Int.emod_nonneg (hashString seed) (by omega : (palette.length : Int) ≠ 0)
    have h2 := Int.emod_lt_of_pos (hashString seed) hlenZ
    omega
  have hne : ¬(palette.get? (jsRem (hashString seed) palette.length).toNat = none) := by
    rw [List.get?_eq_none]
    omega
  unfold paletteLookup
  exact Option.ne_none_iff_isSome.mp hne

/-- C2 counterexample: a wait with a live signal that aborts mid-wait
rejects with the abort error; it does not resolve early. -/
theorem waitForDelay_midwait_abort_rejects :
    waitForDelay 52 (some ⟨false, true⟩) = .rejected heroTypewriterAbortMessage ∧
      waitForDelay 52 (some ⟨false, true⟩) ≠ .resolved := by
  refine ⟨rfl, by decide⟩

/-- C2 (amended): for every duration, a wait whose token is already
signaled at call time rejects immediately, and a wait during which the
token becomes signaled also rejects with the same abort error rather than
resolving early; in both cases the rejection message is exactly the one
`startHeroTypewriter`'s catch swallows, so the intentionally-superseded
case never surfaces as an error. -/
theorem waitForDelay_abort_contract (durationMs : Nat) (sig : SignalBehavior)
    (h : sig.abortedAtCall = true ∨ sig.abortsDuringWait = true) :
    waitForDelay durationMs (some sig) = .rejected heroTypewriterAbortMessage ∧
      startHeroTypewriterCatchSwallows heroTypewriterAbortMessage = true := by
  refine ⟨?_, by decide⟩
  unfold waitForDelay
  rcases h with h | h <;> simp [h]

/-- C2 witness: at duration 52 with a token already signaled at call time,
the wait rejects with the abort message and the catch filter swallows it. -/
theorem waitForDelay_abort_contract_witness :
    waitForDelay 52 (some ⟨true, false⟩) = .rejected heroTypewriterAbortMessage ∧
      startHeroTypewriterCatchSwallows heroTypewriterAbortMessage = true :=
  waitForDelay_abort_contract 52 ⟨true, false⟩ (Or.inl rfl)

/-- C4: opening the detail modal for control `B` while control `A ≠ B`
owns it force-closes `A`'s visual state with no animation, opens `B` with
the open animation, records `B` as the sole modal owner, and shows the
modal. -/
theorem openTimelineJobModal_mutual_exclusion (s : PageState) (A B : Nat)
    (e : TimelineEntry) (hAB : A ≠ B) (hA : s.activeModalControl = some A) :
    ((openTimelineJobModal e B s).controls A).checked = false ∧
      ((openTimelineJobModal e B s).controls A).ariaExpanded = false ∧
      ((openTimelineJobModal e B s).controls A).iconAnimation = .noAnimation ∧
      ((openTimelineJobModal e B s).controls B).checked = true ∧
      ((openTimelineJobModal e B s).controls B).ariaExpanded = true ∧
      ((openTimelineJobModal e B s).controls B).iconAnimation = .makeX ∧
      (openTimelineJobModal e B s).activeModalControl = some B ∧
      (openTimelineJobModal e B s).modalOpen = true := by
  simp [openTimelineJobModal, hA, hAB, updateControl, setTimelinePlusState,
    Ne.symm hAB]

/-- C4 witness: with control 0 owning the modal, opening for control 1
closes 0, opens 1, and records 1 as the sole owner. -/
theorem openTimelineJobModal_mutual_exclusion_witness :
    ((openTimelineJobModal sampleEntry 1 samplePageState).controls 0).checked = false ∧
      ((openTimelineJobModal sampleEntry 1 samplePageState).controls 1).checked = true ∧
      (openTimelineJobModal sampleEntry 1 samplePageState).activeModalControl = some 1 := by
  have h := openTimelineJobModal_mutual_exclusion samplePageState 0 1 sampleEntry
    (by decide) (by rfl)
  exact ⟨h.1, h.2.2.2.1, h.2.2.2.2.2.2.1⟩

/-- The slide-clearing fold of `setActiveSlide` closes exactly the
controls whose slide is in the iterated list and differs from the new
active index. -/
theorem foldClear_controls (cs : Nat → Nat) (act : Int) (ks : List Nat)
    (s : PageState) (c : Nat) :
    ((ks.foldl
        (fun (acc : PageState) (k : Nat) =>
          if (k : Int) = act then acc
          else clearTimelinePlusInSlide cs k false acc)
        s).controls) c =
      if cs c ∈ ks ∧ ((cs c : Int) ≠ act) then
        setTimelinePlusState (s.controls c) false false
      else s.controls c := by
  induction ks generalizing s with
  | nil => simp
  | cons k ks ih =>
    simp only [List.foldl_cons]
    rw [ih]
    by_cases hk : (k : Int) = act
    · rw [if_pos hk]
      by_cases heq : cs c = k
      · have hact : (cs c : Int) = act := by rw [heq]; exact hk
        simp [hact]
      · simp [List.mem_cons, heq]
    · rw [if_neg hk]
      by_cases heq : cs c = k
      · have hact : (cs c : Int) ≠ act := by rw [heq]; exact hk
        simp [List.mem_cons, heq, hact, hk, clearTimelinePlusInSlide,
          setTimelinePlusState]
      · simp [List.mem_cons, heq, clearTimelinePlusInSlide]

/-- The slide-clearing fold of `setActiveSlide` touches only the
`controls` field. -/
theorem foldClear_other_fields (cs : Nat → Nat) (act : Int) (ks : List Nat)
    (s : PageState) :
    ((ks.foldl
        (fun (acc : PageState) (k : Nat) =>
          if (k : Int) = act then acc
          else clearTimelinePlusInSlide cs k false acc)
        s).activeModalControl = s.activeModalControl) ∧
      ((ks.foldl
        (fun (acc : PageState) (k : Nat) =>
          if (k : Int) = act then acc
          else clearTimelinePlusInSlide cs k false acc)
        s).modalOpen = s.modalOpen) ∧
      ((ks.foldl
        (fun (acc : PageState) (k : Nat) =>
          if (k : Int) = act then acc
          else clearTimelinePlusInSlide cs k false acc)
        s).focusedControl = s.focusedControl) := by
  induction ks generalizing s with
  | nil => exact ⟨rfl, rfl, rfl⟩
  | cons k ks ih =>
    simp only [List.foldl_cons]
    rcases ih (if (k : Int) = act then s else clearTimelinePlusInSlide cs k false s)
      with ⟨h1, h2, h3⟩
    constructor
    · rw [h1]; by_cases hk : (k : Int) = act <;> simp [hk, clearTimelinePlusInSlide]
    constructor
    · rw [h2]; by_cases hk : (k : Int) = act <;> simp [hk, clearTimelinePlusInSlide]
    · rw [h3]; by_cases hk : (k : Int) = act <;> simp [hk, clearTimelinePlusInSlide]

/-- `closeTimelineJobModal` without focus restoration: hides the modal,
clears ownership, closes the owner control with no animation, and leaves
keyboard focus where it was. -/
theorem closeTimelineJobModal_noRestore (s : PageState) (m : Nat)
    (h : s.activeModalControl = some m) :
    (closeTimelineJobModal false s).modalOpen = false ∧
      (closeTimelineJobModal false s).activeModalControl = none ∧
      (closeTimelineJobModal false s).focusedControl = s.focusedControl ∧
      ∀ c : Nat, (closeTimelineJobModal false s).controls c =
        if c = m then setTimelinePlusState (s.controls c) false false
        else s.controls c := by
  simp [closeTimelineJobModal, h, updateControl]

/-- C5: after `setActiveSlide`, every expand control on a slide other
than the new active slide is closed with no animation, and if the modal
owner's control is not contained in the new active slide, the modal is
closed, ownership cleared, and keyboard focus is not restored. -/
theorem setActiveSlide_clears_inactive (slideCount : Nat) (controlSlide : Nat → Nat)
    (index : Int) (s : PageState) :
    (∀ c : Nat, controlSlide c < slideCount →
        (controlSlide c : Int) ≠ setActiveSlideIndex index slideCount →
        ((setActiveSlide slideCount controlSlide index s).controls c).checked = false ∧
          ((setActiveSlide slideCount controlSlide index s).controls c).ariaExpanded
              = false ∧
          ((setActiveSlide slideCount controlSlide index s).controls c).iconAnimation
              = .noAnimation) ∧
      (∀ m : Nat, s.activeModalControl = some m →
        (controlSlide m : Int) ≠ setActiveSlideIndex index slideCount →
        (setActiveSlide slideCount controlSlide index s).modalOpen = false ∧
          (setActiveSlide slideCount controlSlide index s).activeModalControl = none ∧
          (setActiveSlide slideCount controlSlide index s).focusedControl
              = s.focusedControl) := by
  simp only [setActiveSlide]
  set act := setActiveSlideIndex index slideCount with hact
  set base : PageState := { s with activeIndex := act } with hbase
  set s1 := (List.range slideCount).foldl
    (fun (acc : PageState) (k : Nat) =>
      if (k : Int) = act then acc
      else clearTimelinePlusInSlide controlSlide k false acc)
    base with hs1
  have hfieldsA : s1.activeModalControl = s.activeModalControl :=
    (foldClear_other_fields controlSlide act (List.range slideCount) base).1
  have hfieldsF : s1.focusedControl = s.focusedControl :=
    (foldClear_other_fields controlSlide act (List.range slideCount) base).2.2
  have hctrl : ∀ c : Nat, controlSlide c < slideCount → (controlSlide c : Int) ≠ act →
      s1.controls c = setTimelinePlusState (s.controls c) false false := by
    intro c hlt hne
    rw [hs1, foldClear_controls]
    simp [List.mem_range, hlt, hne]
  constructor
  · intro c hlt hne
    have hclosed := hctrl c hlt hne
    rcases hA : s1.activeModalControl with _ | m
    · simp [hA, hclosed, setTimelinePlusState]
    · by_cases hm : (controlSlide m : Int) ≠ act
      · simp only [hA, if_pos hm]
        have hcl := (closeTimelineJobModal_noRestore s1 m hA).2.2.2 c
        rw [hcl]
        by_cases hc : c = m <;>
          simp [hc, hclosed, setTimelinePlusState]
      · simp only [hA, if_neg hm]
        simp [hclosed, setTimelinePlusState]
  · intro m hm hne
    have hA : s1.activeModalControl = some m := by rw [hfieldsA, hm]
    simp only [hA, if_pos hne]
    rcases closeTimelineJobModal_noRestore s1 m hA with ⟨h1, h2, h3, _⟩
    exact ⟨h1, h2, h3.trans hfieldsF⟩

/-- C5 witness: with 3 slides, control `c` on slide `c`, and control 0
owning the modal, activating slide 2 closes control 0 and the modal
without focus restoration. -/
theorem setActiveSlide_clears_inactive_witness :
    ((setActiveSlide 3 sampleControlSlide 2 samplePageState).controls 0).checked
        = false ∧
      (setActiveSlide 3 sampleControlSlide 2 samplePageState).modalOpen = false ∧
      (setActiveSlide 3 sampleControlSlide 2 samplePageState).focusedControl
          = samplePageState.focusedControl := by
  have h := setActiveSlide_clears_inactive 3 sampleControlSlide 2 samplePageState
  refine ⟨(h.1 0 (by decide) (by decide)).1, ?_, ?_⟩
  · exact (h.2 0 (by rfl) (by decide)).1
  · exact (h.2 0 (by rfl) (by decide)).2.2

/-- C6: toggling an expand control whose timeline entry has a blank
(empty or whitespace-only) description never opens the modal: the control
is snapped back to closed state with no animation, and the modal and the
rest of the page state are unchanged. -/
theorem timelinePlusGoXHandler_blank_description (entries : List TimelineEntry)
    (slideIndex : Int) (checkboxId : Nat) (s : PageState) (e : TimelineEntry)
    (hentry : entryAt entries slideIndex = some e)
    (hblank : jsTrim e.description = [])
    (hchecked : (s.controls checkboxId).checked = true) :
    ((timelinePlusGoXHandler entries slideIndex checkboxId s).controls
        checkboxId).checked = false ∧
      ((timelinePlusGoXHandler entries slideIndex checkboxId s).controls
          checkboxId).iconAnimation = .noAnimation ∧
      (timelinePlusGoXHandler entries slideIndex checkboxId s).modalOpen
          = s.modalOpen ∧
      (timelinePlusGoXHandler entries slideIndex checkboxId s).activeModalControl
          = s.activeModalControl ∧
      (timelinePlusGoXHandler entries slideIndex checkboxId s).bodyScrollLocked
          = s.bodyScrollLocked ∧
      (timelinePlusGoXHandler entries slideIndex checkboxId s).focusedControl
          = s.focusedControl ∧
      (timelinePlusGoXHandler entries slideIndex checkboxId s).modalTitle
          = s.modalTitle ∧
      (timelinePlusGoXHandler entries slideIndex checkboxId s).modalDescriptionHTML
          = s.modalDescriptionHTML ∧
      ∀ c : Nat, c ≠ checkboxId →
        (timelinePlusGoXHandler entries slideIndex checkboxId s).controls c
          = s.controls c := by
  simp only [timelinePlusGoXHandler, hentry, hblank, updateControl,
    setTimelinePlusState]
  refine ⟨by simp, by simp, rfl, rfl, rfl, rfl, rfl, rfl, ?_⟩
  intro c hc
  simp [hc]

/-- C6 witness: with a whitespace-only description entry at index 0 and
its control just checked, the handler snaps the control closed and leaves
the modal state untouched. -/
theorem timelinePlusGoXHandler_blank_description_witness :
    ((timelinePlusGoXHandler [sampleBlankEntry] 0 0 samplePageState).controls
        0).checked = false ∧
      (timelinePlusGoXHandler [sampleBlankEntry] 0 0 samplePageState).modalOpen
          = samplePageState.modalOpen ∧
      (timelinePlusGoXHandler [sampleBlankEntry] 0 0 samplePageState).activeModalControl
          = samplePageState.activeModalControl := by
  have h := timelinePlusGoXHandler_blank_description [sampleBlankEntry] 0 0
    samplePageState sampleBlankEntry (by decide) (by decide) (by decide)
  exact ⟨h.1, h.2.2.1, h.2.2.2.1⟩

/-- A non-negative channel has non-negative linearized value. -/
theorem toLinearChannel_nonneg (channel : ℝ) (h : 0 ≤ channel) :
    0 ≤ toLinearChannel channel := by
  unfold toLinearChannel
  split
  · positivity
  · exact Real.rpow_nonneg (by positivity) _

/-- Relative luminance of a color with non-negative channels is
non-negative. -/
theorem relativeLuminance_nonneg (c : RGBColor) (h : c.Nonneg) :
    0 ≤ relativeLuminance c := by
  rcases h with ⟨hr, hg, hb⟩
  have h1 := toLinearChannel_nonneg c.r hr
  have h2 := toLinearChannel_nonneg c.g hg
  have h3 := toLinearChannel_nonneg c.b hb
  unfold relativeLuminance
  nlinarith

/-- C9: for colors with non-negative channels, `contrastRatio(a, a) = 1`,
and `contrastRatio` is symmetric in its two arguments. -/
theorem contrastRatio_refl_and_symm (a b : RGBColor) (ha : a.Nonneg)
    (hb : b.Nonneg) :
    contrastRatio a a = 1 ∧ contrastRatio a b = contrastRatio b a := by
  constructor
  · unfold contrastRatio
    rw [max_self, min_self]
    have hl := relativeLuminance_nonneg a ha
    have hpos : (0 : ℝ) < relativeLuminance a + 0.05 := by linarith
    exact div_self (ne_of_gt hpos)
  · unfold contrastRatio
    rw [max_comm, min_comm]

/-- C9 witness: the identity and the symmetry at the two page surface
colors. -/
theorem contrastRatio_refl_and_symm_witness :
    contrastRatio ⟨236, 243, 251⟩ ⟨236, 243, 251⟩ = 1 ∧
      contrastRatio ⟨236, 243, 251⟩ ⟨16, 24, 42⟩ =
        contrastRatio ⟨16, 24, 42⟩ ⟨236, 243, 251⟩ :=
  contrastRatio_refl_and_symm ⟨236, 243, 251⟩ ⟨16, 24, 42⟩
    ⟨by norm_num, by norm_num, by norm_num⟩ ⟨by norm_num, by norm_num, by norm_num⟩

/-- `escapeHTML` distributes over concatenation. -/
theorem escapeHTML_append (a b : JSString) :
    escapeHTML (a ++ b) = escapeHTML a ++ escapeHTML b := by
  simp [escapeHTML, replaceAllChar, List.flatMap_append]

/-- `escapeHTML` on a single character is the single-pass escaper. -/
theorem escapeHTML_single (c : Char) : escapeHTML [c] = escChar c := by
  by_cases h1 : c = '&'
  · subst h1; decide
  by_cases h2 : c = '<'
  · subst h2; decide
  by_cases h3 : c = '>'
  · subst h3; decide
  by_cases h4 : c = doubleQuoteChar
  · subst h4; decide
  by_cases h5 : c = singleQuoteChar
  · subst h5; decide
  simp [escapeHTML, replaceAllChar, escChar, h1, h2, h3, h4, h5]

/-- `escapeHTML` is the character-wise escaper: every occurrence of the
five reserved characters is replaced by its entity, all other characters
are kept. -/
theorem escapeHTML_eq_flatMap (s : JSString) : escapeHTML s = s.flatMap escChar := by
  induction s with
  | nil => rfl
  | cons c t ih =>
    have h : escapeHTML ([c] ++ t) = escapeHTML [c] ++ escapeHTML t :=
      escapeHTML_append [c] t
    simp only [List.singleton_append] at h
    rw [h, escapeHTML_single, ih, List.flatMap_cons]

/-- No escaped character expansion contains an angle bracket. -/
theorem escChar_no_angle (c : Char) :
    (escChar c).count '<' = 0 ∧ (escChar c).count '>' = 0 := by
  by_cases h1 : c = '&'
  · subst h1; decide
  by_cases h2 : c = '<'
  · subst h2; decide
  by_cases h3 : c = '>'
  · subst h3; decide
  by_cases h4 : c = doubleQuoteChar
  · subst h4; decide
  by_cases h5 : c = singleQuoteChar
  · subst h5; decide
  simp [escChar, h1, h2, h3, h4, h5, List.count_singleton]

/-- Escaped text contains no angle brackets at all. -/
theorem escapeHTML_no_angle (s : JSString) :
    (escapeHTML s).count '<' = 0 ∧ (escapeHTML s).count '>' = 0 := by
  induction s with
  | nil => exact ⟨rfl, rfl⟩
  | cons c t ih =>
    have h : escapeHTML ([c] ++ t) = escapeHTML [c] ++ escapeHTML t :=
      escapeHTML_append [c] t
    simp only [List.singleton_append] at h
    rw [h, escapeHTML_single]
    rcases escChar_no_angle c with ⟨h1, h2⟩
    rcases ih with ⟨h3, h4⟩
    constructor <;> simp [List.count_append, h1, h2, h3, h4]

/-- The accumulated highlight output is the rendering of the segment
decomposition. -/
theorem highlightGo_eq_segments (line : JSString) (ms : List RegexMatch) :
    ∀ p : Nat, highlightGo line p ms = (segmentsOf line p ms).flatMap renderSeg := by
  induction ms with
  | nil => intro p; simp [highlightGo, segmentsOf, renderSeg]
  | cons m rest ih =>
    intro p
    simp only [highlightGo, segmentsOf, List.flatMap_cons, renderSeg, ih]
    simp [List.append_assoc]

/-- With a well-formed match list, the literal texts of the segments
concatenate back to the suffix of the line they cover. -/
theorem segments_text (line : JSString) (ms : List RegexMatch) :
    ∀ p : Nat, matchesWF line p ms = true →
      (segmentsOf line p ms).flatMap segText = line.drop p := by
  induction ms with
  | nil => intro p _; simp [segmentsOf, segText]
  | cons m rest ih =>
    intro p hwf
    simp only [matchesWF, Bool.and_eq_true, decide_eq_true_eq] at hwf
    obtain ⟨⟨⟨⟨hp, hlen⟩, hb⟩, hterm⟩, hrest⟩ := hwf
    simp only [segmentsOf, List.flatMap_cons, segText]
    rw [ih (m.index + m.term.length) hrest]
    have h2 : (line.drop p).drop (m.index - p) = line.drop m.index := by
      rw [List.drop_drop]
      congr 1
      omega
    have h3 : line.drop m.index = m.term ++ line.drop (m.index + m.term.length) := by
      conv_lhs => rw [← List.take_append_drop m.term.length (line.drop m.index)]
      rw [← hterm, List.drop_drop]
    try simp only [List.append_nil]
    conv_rhs => rw [← List.take_append_drop (m.index - p) (line.drop p), h2, h3]

/-- The accent spans wrap exactly the matched texts, in order. -/
theorem segments_accents (line : JSString) (ms : List RegexMatch) :
    ∀ p : Nat, accentTexts (segmentsOf line p ms) = ms.map RegexMatch.term := by
  induction ms with
  | nil => intro p; simp [segmentsOf, accentTexts]
  | cons m rest ih =>
    intro p
    simp [segmentsOf, accentTexts, List.filterMap_cons] at *
    exact ih (m.index + m.term.length)

/-- The accumulated highlight output contains exactly two `<` and two `>`
per match (one in each span tag). -/
theorem highlightGo_angle_count (line : JSString) (ms : List RegexMatch) :
    ∀ p : Nat, (highlightGo line p ms).count '<' = 2 * ms.length ∧
      (highlightGo line p ms).count '>' = 2 * ms.length := by
  induction ms with
  | nil =>
    intro p
    simpa [highlightGo] using escapeHTML_no_angle (line.drop p)
  | cons m rest ih =>
    intro p
    rcases ih (m.index + m.term.length) with ⟨ih1, ih2⟩
    rcases escapeHTML_no_angle ((line.drop p).take (m.index - p)) with ⟨g1, g2⟩
    rcases escapeHTML_no_angle m.term with ⟨t1, t2⟩
    have ho1 : accentSpanOpen.count '<' = 1 := by decide
    have ho2 : accentSpanOpen.count '>' = 1 := by decide
    have hc1 : accentSpanClose.count '<' = 1 := by decide
    have hc2 : accentSpanClose.count '>' = 1 := by decide
    constructor <;>
      simp [highlightGo, List.count_append, ih1, ih2, g1, g2, t1, t2,
        ho1, ho2, hc1, hc2, List.length_cons] <;> ring

/-- `highlightHeroLine`'s no-match early return coincides with running the
accumulation from index 0. -/
theorem highlightHeroLine_eq_go (line : JSString) (ms : List RegexMatch) :
    highlightHeroLine line ms = highlightGo line 0 ms := by
  cases ms with
  | nil => simp [highlightHeroLine, highlightGo]
  | cons m rest => simp [highlightHeroLine]

/-- C7: for every line and well-formed match list, the rendered markup is
built from HTML-escaped literal text only — `escapeHTML` replaces every
occurrence of the five reserved characters by its entity — arranged as the
rendering of a segment decomposition whose literal texts concatenate back
to exactly the input line and whose accent spans wrap exactly the pattern
matches; the only angle brackets in the output are the two per match
contributed by the accent span tags. -/
theorem highlightHeroLine_escapes_and_wraps (line : JSString) (ms : List RegexMatch)
    (hwf : matchesWF line 0 ms = true) :
    escapeHTML line = line.flatMap escChar ∧
      highlightHeroLine line ms = (segmentsOf line 0 ms).flatMap renderSeg ∧
      (segmentsOf line 0 ms).flatMap segText = line ∧
      accentTexts (segmentsOf line 0 ms) = ms.map RegexMatch.term ∧
      (highlightHeroLine line ms).count '<' = 2 * ms.length ∧
      (highlightHeroLine line ms).count '>' = 2 * ms.length := by
  rw [highlightHeroLine_eq_go]
  refine ⟨escapeHTML_eq_flatMap line, highlightGo_eq_segments line ms 0, ?_,
    segments_accents line ms 0, (highlightGo_angle_count line ms 0).1,
    (highlightGo_angle_count line ms 0).2⟩
  have htext := segments_text line ms 0 hwf
  simpa using htext

/-- C7 witness: on the line `ship it fast` with matches `ship` and `fast`,
the segment texts reassemble the line and the output holds exactly four
angle brackets of each kind. -/
theorem highlightHeroLine_escapes_and_wraps_witness :
    (segmentsOf (jstr "ship it fast") 0
        [⟨0, jstr "ship"⟩, ⟨8, jstr "fast"⟩]).flatMap segText
      = jstr "ship it fast" ∧
      (highlightHeroLine (jstr "ship it fast")
          [⟨0, jstr "ship"⟩, ⟨8, jstr "fast"⟩]).count '<' = 4 := by
  have h := highlightHeroLine_escapes_and_wraps (jstr "ship it fast")
    [⟨0, jstr "ship"⟩, ⟨8, jstr "fast"⟩] (by decide)
  refine ⟨h.2.2.1, ?_⟩
  have h5 := h.2.2.2.2.1
  simpa using h5

/-- `dropWhile` is the identity when no element satisfies the predicate. -/
theorem dropWhile_all_false {p : Char → Bool} (s : JSString)
    (h : ∀ c ∈ s, p c = false) : s.dropWhile p = s := by
  induction s with
  | nil => rfl
  | cons c t ih =>
    rw [List.dropWhile_cons]
    simp [h c (List.mem_cons_self c t)]

/-- Trimming is the identity on whitespace-free strings. -/
theorem jsTrim_eq_self (s : JSString) (h : ∀ c ∈ s, isJSWhitespace c = false) :
    jsTrim s = s := by
  unfold jsTrim
  rw [dropWhile_all_false s h,
    dropWhile_all_false s.reverse (fun c hc => h c (List.mem_reverse.mp hc)),
    List.reverse_reverse]

/-- Trimming is the identity when both end characters are not whitespace. -/
theorem jsTrim_eq_self_ends (c : Char) (mid : JSString) (d : Char)
    (hc : isJSWhitespace c = false) (hd : isJSWhitespace d = false) :
    jsTrim (c :: (mid ++ [d])) = c :: (mid ++ [d]) := by
  unfold jsTrim
  have h1 : List.dropWhile isJSWhitespace (c :: (mid ++ [d])) = c :: (mid ++ [d]) := by
    rw [List.dropWhile_cons]
    simp [hc]
  have hrev : (c :: (mid ++ [d])).reverse = d :: (mid.reverse ++ [c]) := by
    simp
  have h2 : List.dropWhile isJSWhitespace (d :: (mid.reverse ++ [c]))
      = d :: (mid.reverse ++ [c]) := by
    rw [List.dropWhile_cons]
    simp [hd]
  rw [h1, hrev, h2, ← hrev, List.reverse_reverse]

/-- Code-point ranges of hexadecimal digits. -/
theorem hexDigit_ranges (c : Char) (h : (hexDigitValue c).isSome = true) :
    (48 ≤ c.toNat ∧ c.toNat ≤ 57) ∨ (97 ≤ c.toNat ∧ c.toNat ≤ 102) ∨
      (65 ≤ c.toNat ∧ c.toNat ≤ 70) := by
  unfold hexDigitValue at h
  split_ifs at h with h1 h2 h3
  · exact Or.inl h1
  · exact Or.inr (Or.inl h2)
  · exact Or.inr (Or.inr h3)
  · simp at h

/-- Hexadecimal digits are not JS whitespace. -/
theorem hexDigit_not_ws (c : Char) (h : (hexDigitValue c).isSome = true) :
    isJSWhitespace c = false := by
  have hr := hexDigit_ranges c h
  simp only [isJSWhitespace, decide_eq_false_iff_not]
  omega

/-- Hexadecimal digits are not sign characters. -/
theorem hexDigit_ne_sign (c : Char) (h : (hexDigitValue c).isSome = true) :
    c ≠ '-' ∧ c ≠ '+' := by
  have hr := hexDigit_ranges c h
  constructor <;> intro he <;> subst he <;> revert hr <;> decide

/-- Hexadecimal digits are not the `x`/`X` of a `0x` prefix. -/
theorem hexDigit_ne_x (c : Char) (h : (hexDigitValue c).isSome = true) :
    c ≠ 'x' ∧ c ≠ 'X' := by
  have hr := hexDigit_ranges c h
  constructor <;> intro he <;> subst he <;> revert hr <;> decide

/-- `parseInt(hexPair, 16)` of two hex digits is the byte value. -/
theorem jsParseIntHex_pair (c d : Char) (hc : (hexDigitValue c).isSome = true)
    (hd : (hexDigitValue d).isSome = true) :
    jsParseIntHex [c, d] =
      .val (16 * ((hexDigitValue c).getD 0 : ℚ) + ((hexDigitValue d).getD 0 : ℚ)) := by
  have hcw := hexDigit_not_ws c hc
  have hcm := hexDigit_ne_sign c hc
  have hdx := hexDigit_ne_x d hd
  unfold jsParseIntHex
  rw [List.dropWhile_cons]
  simp only [hcw, Bool.false_eq_true, if_false]
  simp [hcm.1, hcm.2, hdx.1, hdx.2, hc, hd, List.takeWhile_cons]
  try push_cast
  try ring

/-- A list of length six has exactly six elements. -/
theorem list_length_eq_six {α : Type} {l : List α} (h : l.length = 6) :
    ∃ a b c d e f : α, l = [a, b, c, d, e, f] := by
  rcases l with _ | ⟨a, _ | ⟨b, _ | ⟨c, _ | ⟨d, _ | ⟨e, _ | ⟨f, t⟩⟩⟩⟩⟩⟩
  · simp at h
  · simp at h
  · simp at h
  · simp at h
  · simp at h
  · simp at h
  · have ht : t = [] := by simpa using h
    subst ht
    exact ⟨a, b, c, d, e, f, rfl⟩

/-- A list of length eight has exactly eight elements. -/
theorem list_length_eq_eight {α : Type} {l : List α} (h : l.length = 8) :
    ∃ a b c d e f g k : α, l = [a, b, c, d, e, f, g, k] := by
  rcases l with _ | ⟨a, _ | ⟨b, _ | ⟨c, _ | ⟨d, _ | ⟨e, _ | ⟨f, _ | ⟨g, _ | ⟨k, t⟩⟩⟩⟩⟩⟩⟩⟩
  · simp at h
  · simp at h
  · simp at h
  · simp at h
  · simp at h
  · simp at h
  · simp at h
  · simp at h
  · have ht : t = [] := by simpa using h
    subst ht
    exact ⟨a, b, c, d, e, f, g, k, rfl⟩

/-- On `#`-prefixed all-hex input, `parseHexColor` is reached with the
digits as payload. -/
theorem parseHexColor_hash (ds : JSString)
    (hhex : ∀ c ∈ ds, (hexDigitValue c).isSome = true) :
    parseHexColor ('#' :: ds) = parseHexPayload ds := by
  have htrim : jsTrim ('#' :: ds) = '#' :: ds := by
    refine jsTrim_eq_self _ fun c hc => ?_
    rcases List.mem_cons.mp hc with h | h
    · subst h; decide
    · exact hexDigit_not_ws c (hhex c h)
  unfold parseHexColor
  rw [htrim]
  simp

/-- Valid hex payloads decode as the reference decoder does. -/
theorem parseHexPayload_reference (ds : JSString)
    (hhex : ∀ c ∈ ds, (hexDigitValue c).isSome = true)
    (hlen : ds.length = 3 ∨ ds.length = 6 ∨ ds.length = 8) :
    parseHexPayload ds = referenceHexDecode ds := by
  rcases hlen with h3 | h6 | h8
  · obtain ⟨c1, c2, c3, rfl⟩ := List.length_eq_three.mp h3
    have hh1 := hhex c1 (by simp)
    have hh2 := hhex c2 (by simp)
    have hh3 := hhex c3 (by simp)
    simp only [parseHexPayload, referenceHexDecode]
    rw [jsParseIntHex_pair c1 c1 hh1 hh1, jsParseIntHex_pair c2 c2 hh2 hh2,
      jsParseIntHex_pair c3 c3 hh3 hh3]
    simp only [Option.some.injEq, JSColor.mk.injEq, JSNum.val.injEq, hexVal]
    try repeat' apply And.intro
    all_goals first | trivial | ring
  · obtain ⟨c1, c2, c3, c4, c5, c6, rfl⟩ := list_length_eq_six h6
    have hh1 := hhex c1 (by simp)
    have hh2 := hhex c2 (by simp)
    have hh3 := hhex c3 (by simp)
    have hh4 := hhex c4 (by simp)
    have hh5 := hhex c5 (by simp)
    have hh6 := hhex c6 (by simp)
    simp only [parseHexPayload, referenceHexDecode]
    rw [jsParseIntHex_pair c1 c2 hh1 hh2, jsParseIntHex_pair c3 c4 hh3 hh4,
      jsParseIntHex_pair c5 c6 hh5 hh6]
    simp only [Option.some.injEq, JSColor.mk.injEq, JSNum.val.injEq, hexVal]
    try repeat' apply And.intro
    all_goals first | trivial | ring
  · obtain ⟨c1, c2, c3, c4, c5, c6, c7, c8, rfl⟩ := list_length_eq_eight h8
    have hh1 := hhex c1 (by simp)
    have hh2 := hhex c2 (by simp)
    have hh3 := hhex c3 (by simp)
    have hh4 := hhex c4 (by simp)
    have hh5 := hhex c5 (by simp)
    have hh6 := hhex c6 (by simp)
    have hh7 := hhex c7 (by simp)
    have hh8 := hhex c8 (by simp)
    simp only [parseHexPayload, referenceHexDecode]
    rw [jsParseIntHex_pair c1 c2 hh1 hh2, jsParseIntHex_pair c3 c4 hh3 hh4,
      jsParseIntHex_pair c5 c6 hh5 hh6, jsParseIntHex_pair c7 c8 hh7 hh8]
    simp [JSNum.div255, hexVal]
    try repeat' apply And.intro
    all_goals first | trivial | ring

/-- Valid hex inputs produce the reference decoding through `parseColor`. -/
theorem parseColor_hex_reference (ds : JSString)
    (hhex : ∀ c ∈ ds, (hexDigitValue c).isSome = true)
    (hlen : ds.length = 3 ∨ ds.length = 6 ∨ ds.length = 8) :
    parseColor ('#' :: ds) = referenceHexDecode ds := by
  have h1 := parseHexColor_hash ds hhex
  have h2 := parseHexPayload_reference ds hhex hlen
  unfold parseColor
  rw [h1, h2]
  have h3 : (referenceHexDecode ds).isSome = true := by
    rcases hlen with h | h | h
    · obtain ⟨a, b, c, rfl⟩ := List.length_eq_three.mp h
      simp [referenceHexDecode]
    · obtain ⟨a, b, c, d, e, f, rfl⟩ := list_length_eq_six h
      simp [referenceHexDecode]
    · obtain ⟨a, b, c, d, e, f, g, k, rfl⟩ := list_length_eq_eight h
      simp [referenceHexDecode]
  obtain ⟨color, hcolor⟩ := Option.isSome_iff_exists.mp h3
  rw [hcolor]

/-- Code-point range of decimal digits. -/
theorem digit_range (c : Char) (h : c.isDigit = true) :
    48 ≤ c.toNat ∧ c.toNat ≤ 57 := by
  simp [Char.isDigit, UInt32.le_def, Char.toNat, BitVec.le_def, UInt32.toNat] at h ⊢
  omega

/-- Decimal digits are not JS whitespace. -/
theorem digit_not_ws (c : Char) (h : c.isDigit = true) :
    isJSWhitespace c = false := by
  have hr := digit_range c h
  simp only [isJSWhitespace, decide_eq_false_iff_not]
  omega

/-- Decimal digits are in the `[\d.]` class. -/
theorem digit_isNumToken (c : Char) (h : c.isDigit = true) :
    isNumTokenChar c = true := by
  simp [isNumTokenChar, h]

/-- Decimal digits are not a closing parenthesis. -/
theorem digit_ne_rparen (c : Char) (h : c.isDigit = true) : ¬(c = ')') := by
  intro he
  subst he
  exact absurd h (by decide)

/-- `takeWhile` stops exactly at an appended failing element. -/
theorem takeWhile_append_stop {p : Char → Bool} (body : JSString) (stop : Char)
    (rest : JSString) (hb : ∀ c ∈ body, p c = true) (hs : p stop = false) :
    (body ++ stop :: rest).takeWhile p = body := by
  induction body with
  | nil => simp [List.takeWhile_cons, hs]
  | cons c t ih =>
    rw [List.cons_append, List.takeWhile_cons]
    simp only [hb c (List.mem_cons_self c t), if_true]
    rw [ih fun x hx => hb x (List.mem_cons_of_mem c hx)]

/-- A separator character starts no numeric token. -/
theorem numericTokens_sep_cons (sep : Char) (t : JSString)
    (h : isNumTokenChar sep = false) :
    numericTokens (sep :: t) = numericTokens t := by
  simp [numericTokens, h]

/-- A maximal numeric run followed by a non-numeric boundary (or nothing)
is one token. -/
theorem numericTokens_run_append (run : JSString) (s : JSString)
    (hrun : run ≠ []) (hall : ∀ c ∈ run, isNumTokenChar c = true)
    (hs : s = [] ∨ ∃ c t, s = c :: t ∧ isNumTokenChar c = false) :
    numericTokens (run ++ s) = run :: numericTokens s := by
  induction run with
  | nil => exact absurd rfl hrun
  | cons a t ih =>
    have ha : isNumTokenChar a = true := hall a (List.mem_cons_self a t)
    cases t with
    | nil =>
      rcases hs with hs | ⟨c, t', rfl, hc⟩
      · subst hs
        simp [numericTokens, ha]
      · simp [numericTokens, ha, hc]
    | cons b t' =>
      have hb : isNumTokenChar b = true := hall b (by simp)
      have ihr := ih (by simp) fun c hc => hall c (List.mem_cons_of_mem a hc)
      simp only [List.cons_append] at ihr ⊢
      rw [numericTokens]
      simp only [List.cons_append, ha, if_true, hb, ihr]
      try simp

/-- `sepJoin` of non-empty numeric runs tokenizes back to those runs. -/
theorem numericTokens_sepJoin (sep : Char) (hsep : isNumTokenChar sep = false) :
    ∀ runs : List JSString, runs ≠ [] →
      (∀ run ∈ runs, run ≠ [] ∧ ∀ c ∈ run, isNumTokenChar c = true) →
      numericTokens (sepJoin sep runs) = runs := by
  intro runs
  induction runs with
  | nil => intro h; exact absurd rfl h
  | cons x xs ih =>
    intro _ hfacts
    have hx := hfacts x (List.mem_cons_self x xs)
    cases xs with
    | nil =>
      show numericTokens (sepJoin sep [x]) = [x]
      have h1 : sepJoin sep [x] = x ++ [] := by simp [sepJoin]
      rw [h1, numericTokens_run_append x [] hx.1 hx.2 (Or.inl rfl)]
      rfl
    | cons y ys =>
      have h1 : sepJoin sep (x :: y :: ys) = x ++ sep :: sepJoin sep (y :: ys) := rfl
      rw [h1, numericTokens_run_append x (sep :: sepJoin sep (y :: ys)) hx.1 hx.2
        (Or.inr ⟨sep, sepJoin sep (y :: ys), rfl, hsep⟩)]
      rw [numericTokens_sep_cons sep _ hsep]
      rw [ih (by simp) fun run hr => hfacts run (List.mem_cons_of_mem x hr)]

/-- `parseFloat` of a non-empty digit run is its decimal value. -/
theorem jsParseFloatToken_digits (run : JSString) (hne : run ≠ [])
    (hall : ∀ c ∈ run, c.isDigit = true) :
    jsParseFloatToken run = .val (digitsToNat run) := by
  unfold jsParseFloatToken
  rw [List.takeWhile_eq_self_iff.mpr hall]
  simp [List.drop_length, hne]

/-- Characters of `sepJoin` come from a run or are the separator. -/
theorem sepJoin_mem (sep : Char) :
    ∀ (runs : List JSString) (c : Char), c ∈ sepJoin sep runs →
      c = sep ∨ ∃ run ∈ runs, c ∈ run := by
  intro runs
  induction runs with
  | nil => intro c hc; simp [sepJoin] at hc
  | cons x xs ih =>
    intro c hc
    cases xs with
    | nil =>
      simp only [sepJoin] at hc
      exact Or.inr ⟨x, by simp, hc⟩
    | cons y ys =>
      have h1 : sepJoin sep (x :: y :: ys) = x ++ sep :: sepJoin sep (y :: ys) := rfl
      rw [h1] at hc
      rcases List.mem_append.mp hc with hc | hc
      · exact Or.inr ⟨x, by simp, hc⟩
      · rcases List.mem_cons.mp hc with hc | hc
        · exact Or.inl hc
        · rcases ih c hc with h | ⟨run, hr, hcr⟩
          · exact Or.inl h
          · exact Or.inr ⟨run, List.mem_cons_of_mem x hr, hcr⟩

/-- `sepJoin` of runs whose first element is non-empty is non-empty. -/
theorem sepJoin_ne_nil (sep : Char) (x : JSString) (xs : List JSString)
    (hx : x ≠ []) : sepJoin sep (x :: xs) ≠ [] := by
  cases xs with
  | nil => simpa [sepJoin] using hx
  | cons y ys =>
    have h1 : sepJoin sep (x :: y :: ys) = x ++ sep :: sepJoin sep (y :: ys) := rfl
    rw [h1]
    simp [hx]

/-- The constructed `rgb(...)`/`rgba(...)` string decomposed for
end-character reasoning. -/
theorem mkRgbString_shape (withAlpha : Bool) (body : JSString) :
    mkRgbString withAlpha body =
      'r' :: (((if withAlpha then ['g', 'b', 'a', '('] else ['g', 'b', '(']) ++ body)
        ++ [')']) := by
  cases withAlpha <;> simp [mkRgbString]

/-- The constructed string needs no trimming. -/
theorem jsTrim_mkRgbString (withAlpha : Bool) (body : JSString) :
    jsTrim (mkRgbString withAlpha body) = mkRgbString withAlpha body := by
  rw [mkRgbString_shape]
  exact jsTrim_eq_self_ends 'r' _ ')' (by decide) (by decide)

/-- The wrapper regex accepts the constructed string and extracts the
body. -/
theorem rgbWrapperInner_mk (withAlpha : Bool) (body : JSString) (hne : body ≠ [])
    (hnp : ∀ c ∈ body, ¬(c = ')')) :
    rgbWrapperInner (mkRgbString withAlpha body) = some body := by
  have htake : (body ++ [')']).takeWhile (fun c => !decide (c = ')')) = body := by
    refine takeWhile_append_stop body ')' [] (fun c hc => ?_) (by decide)
    simp [hnp c hc]
  have hdrop : (body ++ [')']).drop body.length = [')'] := List.drop_left body [')']
  cases withAlpha <;>
    simp [rgbWrapperInner, mkRgbString, htake, hdrop, hne]

/-- A list of length four has exactly four elements. -/
theorem list_length_eq_four {α : Type} {l : List α} (h : l.length = 4) :
    ∃ a b c d : α, l = [a, b, c, d] := by
  rcases l with _ | ⟨a, _ | ⟨b, _ | ⟨c, _ | ⟨d, t⟩⟩⟩⟩
  · simp at h
  · simp at h
  · simp at h
  · simp at h
  · have ht : t = [] := by simpa using h
    subst ht
    exact ⟨a, b, c, d, rfl⟩

/-- The constructed string is rejected by the hex parser. -/
theorem parseHexColor_mkRgbString (withAlpha : Bool) (body : JSString) :
    parseHexColor (mkRgbString withAlpha body) = none := by
  unfold parseHexColor
  rw [jsTrim_mkRgbString, mkRgbString_shape]
  simp

/-- Every comma- or space-separated all-numeric `rgb()`/`rgba()` form is
accepted with the decimal channel values; a fourth channel becomes the
alpha, else alpha is 1. -/
theorem parseColor_rgb_accepts (withAlpha : Bool) (sep : Char)
    (hsep : sep = ',' ∨ sep = ' ') (chans : List JSString)
    (hlen : chans.length = 3 ∨ chans.length = 4)
    (hne : ∀ run ∈ chans, run ≠ [])
    (hdig : ∀ run ∈ chans, ∀ c ∈ run, c.isDigit = true) :
    parseColor (mkRgbString withAlpha (sepJoin sep chans)) =
      some ⟨.val (digitsToNat (chans.getD 0 [])),
        .val (digitsToNat (chans.getD 1 [])),
        .val (digitsToNat (chans.getD 2 [])),
        if chans.length = 4 then .val (digitsToNat (chans.getD 3 [])) else .val 1⟩ := by
  have hsepn : isNumTokenChar sep = false := by
    rcases hsep with h | h <;> subst h <;> decide
  have hsepp : ¬(sep = ')') := by
    rcases hsep with h | h <;> subst h <;> decide
  have hchne : chans ≠ [] := by
    intro h
    subst h
    simp at hlen
  have hbody : sepJoin sep chans ≠ [] := by
    rcases chans with _ | ⟨x, xs⟩
    · exact absurd rfl hchne
    · exact sepJoin_ne_nil sep x xs (hne x (List.mem_cons_self x xs))
  have hnp : ∀ c ∈ sepJoin sep chans, ¬(c = ')') := by
    intro c hc
    rcases sepJoin_mem sep chans c hc with h | ⟨run, hr, hcr⟩
    · subst h; exact hsepp
    · exact digit_ne_rparen c (hdig run hr c hcr)
  have htok : numericTokens (sepJoin sep chans) = chans := by
    refine numericTokens_sepJoin sep hsepn chans hchne fun run hr => ⟨hne run hr, ?_⟩
    exact fun c hc => digit_isNumToken c (hdig run hr c hc)
  have hmap : chans.map jsParseFloatToken =
      chans.map fun run => JSNum.val (digitsToNat run) := by
    refine List.map_congr_left fun run hr => ?_
    exact jsParseFloatToken_digits run (hne run hr) (hdig run hr)
  unfold parseColor
  rw [parseHexColor_mkRgbString]
  show parseRgbColor (mkRgbString withAlpha (sepJoin sep chans)) = _
  unfold parseRgbColor
  rw [jsTrim_mkRgbString, rgbWrapperInner_mk withAlpha _ hbody hnp]
  rcases hlen with h3 | h4
  · obtain ⟨a, b, c, rfl⟩ := List.length_eq_three.mp h3
    simp [htok, hmap]
  · obtain ⟨a, b, c, d, rfl⟩ := list_length_eq_four h4
    simp [htok, hmap]

/-- The hex payload parser fails exactly off the 3/6/8-digit lengths. -/
theorem parseHexPayload_none_iff (hex : JSString) :
    parseHexPayload hex = none ↔
      ¬(hex.length = 3 ∨ hex.length = 6 ∨ hex.length = 8) := by
  rcases hex with _ | ⟨c1, _ | ⟨c2, _ | ⟨c3, _ | ⟨c4, _ | ⟨c5, _ | ⟨c6, _ | ⟨c7,
    _ | ⟨c8, rest⟩⟩⟩⟩⟩⟩⟩⟩
  · simp [parseHexPayload]
  · simp [parseHexPayload]
  · simp [parseHexPayload]
  · simp [parseHexPayload]
  · simp [parseHexPayload]
  · simp [parseHexPayload]
  · simp [parseHexPayload]
  · simp [parseHexPayload]
  · cases rest with
    | nil => simp [parseHexPayload]
    | cons c9 rest2 =>
      simp only [parseHexPayload, List.length_cons]
      constructor
      · intro _
        omega
      · intro _
        trivial

/-- The hex parser fails exactly outside the hex shapes. -/
theorem parseHexColor_none_iff (s : JSString) :
    parseHexColor s = none ↔ hexShape s = false := by
  unfold parseHexColor hexShape
  by_cases hh : (jsTrim s).head? = some '#'
  · rw [if_pos hh, parseHexPayload_none_iff]
    simp [hh]
  · rw [if_neg hh]
    simp [hh]

/-- The rgb parser fails exactly outside the rgb shapes. -/
theorem parseRgbColor_none_iff (s : JSString) :
    parseRgbColor s = none ↔ rgbShape s = false := by
  unfold parseRgbColor rgbShape
  cases hw : rgbWrapperInner (jsTrim s) with
  | none => simp
  | some inner =>
    simp only
    by_cases hc : ((numericTokens inner).map jsParseFloatToken).length < 3 ∨
        (((numericTokens inner).map jsParseFloatToken).take 3).any
          (fun ch => ch = JSNum.nan)
    · rw [if_pos hc]
      simp only [List.any_eq_true, List.all_eq_true, decide_eq_true_eq,
        decide_eq_false_iff_not] at hc ⊢
      constructor
      · intro _
        intro hcon
        rcases hc with h | ⟨x, hx, hxe⟩
        · omega
        · exact (hcon.2 x hx) hxe
      · intro _
        trivial
    · rw [if_neg hc]
      push_neg at hc
      have h2 : ∀ x ∈ (((numericTokens inner).map jsParseFloatToken).take 3),
          ¬(x = JSNum.nan) := by
        intro x hx hxe
        refine hc.2 ?_
        simp only [List.any_eq_true, decide_eq_true_eq]
        exact ⟨x, hx, hxe⟩
      constructor
      · intro hcon
        simp at hcon
      · intro hcon
        exfalso
        simp only [decide_eq_false_iff_not, List.all_eq_true,
          decide_eq_true_eq] at hcon
        exact hcon ⟨hc.1, h2⟩

/-- `parseColor` yields null exactly when the input fits neither the hex
shapes nor the rgb shapes. -/
theorem parseColor_none_iff (s : JSString) :
    parseColor s = none ↔ (hexShape s = false ∧ rgbShape s = false) := by
  unfold parseColor
  cases hh : parseHexColor s with
  | some c =>
    have h2 : ¬(hexShape s = false) := by
      rw [← parseHexColor_none_iff, hh]
      simp
    simp [h2]
  | none =>
    have h2 : hexShape s = false := (parseHexColor_none_iff s).mp hh
    rw [parseRgbColor_none_iff s]
    simp [h2]

/-- C3 counterexample: `#zzz` is none of the claimed forms (its digits are
not hexadecimal), yet `parseColor` returns a color object with NaN
channels instead of null. -/
theorem parseColor_hash_zzz_not_null :
    parseColor (jstr "#zzz") = some ⟨.nan, .nan, .nan, .val 1⟩ ∧
      parseColor (jstr "#zzz") ≠ none := by
  refine ⟨by decide, by decide⟩

/-- C3 (amended): `parseColor` accepts every 3/6/8-digit hex form with the
same channel values as the reference decoder, and every `rgb()`/`rgba()`
form with comma- or space-separated all-digit channels (an explicit
fourth channel becomes the alpha); an input fitting neither the hex
shapes (trimmed `#` head with 3/6/8-character payload) nor the rgb shapes
(wrapper match with at least three non-NaN numeric tokens) yields null —
but a `#`-shaped input of valid length with non-hex characters yields a
color with NaN channels rather than null. -/
theorem parseColor_forms :
    (∀ ds : JSString, (∀ c ∈ ds, (hexDigitValue c).isSome = true) →
        (ds.length = 3 ∨ ds.length = 6 ∨ ds.length = 8) →
        parseColor ('#' :: ds) = referenceHexDecode ds) ∧
      (∀ (withAlpha : Bool) (sep : Char), (sep = ',' ∨ sep = ' ') →
        ∀ chans : List JSString, (chans.length = 3 ∨ chans.length = 4) →
        (∀ run ∈ chans, run ≠ []) →
        (∀ run ∈ chans, ∀ c ∈ run, c.isDigit = true) →
        parseColor (mkRgbString withAlpha (sepJoin sep chans)) =
          some ⟨.val (digitsToNat (chans.getD 0 [])),
            .val (digitsToNat (chans.getD 1 [])),
            .val (digitsToNat (chans.getD 2 [])),
            if chans.length = 4 then .val (digitsToNat (chans.getD 3 []))
            else .val 1⟩) ∧
      (∀ s : JSString, parseColor s = none ↔
        (hexShape s = false ∧ rgbShape s = false)) := by
  refine ⟨parseColor_hex_reference, ?_, parseColor_none_iff⟩
  intro withAlpha sep hsep chans hlen hne hdig
  exact parseColor_rgb_accepts withAlpha sep hsep chans hlen hne hdig

/-- C3 witness: a hex form decodes as the reference decoder, an rgb form
decodes to its decimal channels, and an input of neither shape is null. -/
theorem parseColor_forms_witness :
    parseColor (jstr "#1af") = referenceHexDecode (jstr "1af") ∧
      parseColor (jstr "rgb(10,20,30)") =
        some ⟨.val 10, .val 20, .val 30, .val 1⟩ ∧
      parseColor (jstr "hello") = none := by
  have h := parseColor_forms
  refine ⟨h.1 (jstr "1af") (by decide) (by decide), ?_, ?_⟩
  · have h2 := h.2.1 false ',' (Or.inl rfl) [jstr "10", jstr "20", jstr "30"]
      (Or.inl (by decide)) (by decide) (by decide)
    have h3 : mkRgbString false (sepJoin ',' [jstr "10", jstr "20", jstr "30"]) =
        jstr "rgb(10,20,30)" := by decide
    rw [h3] at h2
    rw [h2]
    decide
  · exact (h.2.2 (jstr "hello")).mpr ⟨by decide, by decide⟩
